import Mathlib

/-!
Shallow embedding of the burn-in test engine (`copyleftdev/burnin`), covering
the data model (`src/core/test.rs`), the suite aggregation (`TestSuite::finalize`
in `src/core/runner.rs`), the scheduler (`BurnInRunner::execute_sequential` /
`execute_parallel`), and the memory workload's scoring pipeline
(`src/tests/memory.rs`).

Conventions of the embedding:
* Machine integers are `Nat` with explicit `% 2^w` at every Rust cast or
  wrapping point (`as u32` is `% 2^32`, `as u8` is `% 2^8`, a `u64` sum is
  `% 2^64`).  Overflowing arithmetic is modelled with release-profile
  wrapping semantics; `Nat` division by zero is `0` (the one Rust panic
  point, `x / 0_u32`, is outside every claim's amended hypotheses).
* Wall-clock reads (`chrono::Utc::now()`, `Instant::elapsed()`) are passed
  in as explicit `Nat` parameters (seconds).
* A `Duration` is modelled by its whole-second value `as_secs()`, which is
  the only view `finalize` takes of it.
* The cooperative interrupt flag is modelled as an oracle `Nat → Bool`
  giving the value the flag is observed to have at the n-th check of the
  relevant loop.
* `metrics` (an opaque JSON value never read by the engine) is not carried.
-/

namespace Burnin

/-- `TestStatus` from `src/core/test.rs`. -/
inductive TestStatus where
  | Pending
  | Running
  | Completed
  | Failed
  | Skipped
  | Partial
deriving DecidableEq, Repr

instance : BEq TestStatus := instBEqOfDecidableEq

/-- `IssueSeverity` from `src/core/test.rs`. -/
inductive IssueSeverity where
  | Low
  | Medium
  | High
  | Critical
deriving DecidableEq, Repr

instance : BEq IssueSeverity := instBEqOfDecidableEq

/-- `TestIssue` from `src/core/test.rs`. -/
structure TestIssue where
  component : String
  severity : IssueSeverity
  message : String
  action : Option String
deriving DecidableEq, Repr

/-- `TestResult` from `src/core/test.rs`.  `score : u8` is represented by a
`Nat` (well-formed values are `< 256`); `duration` is represented by its
whole-second value `durationSecs` (`Duration::as_secs()`, a `u64`), which is
all `finalize` reads of it.  The opaque `metrics` JSON is not carried. -/
structure TestResult where
  name : String
  status : TestStatus
  score : Nat
  durationSecs : Nat
  issues : List TestIssue
deriving DecidableEq, Repr

/-- `TestSuite` from `src/core/runner.rs`.  Timestamps are `Nat` seconds. -/
structure TestSuite where
  results : List TestResult
  startTime : Nat
  endTime : Option Nat
  overall_score : Nat
  overall_status : TestStatus
  duration : Nat
deriving Repr

/-- `TestSuite::new()` (runner.rs 24-34), with the `chrono::Utc::now()` read
passed in as `now`. -/
def TestSuite.new (now : Nat) : TestSuite :=
  { results := []
    startTime := now
    endTime := none
    overall_score := 0
    overall_status := .Pending
    duration := 0 }

/-- The score computation of `TestSuite::finalize` (runner.rs 50-64) on a
non-empty result list.  `total_duration_secs` is a `sum::<u64>()` (wraps at
`2^64`); each weighted product is `(score as u64 * secs) as u32`
(truncation `% 2^32`, with the preceding `u64` multiply's own wrap absorbed
since `2^32 ∣ 2^64`); both sums are `sum::<u32>()` (`% 2^32`); the divisors
are `as u32` casts; the final store is `as u8` (`% 2^8`). -/
def overallScoreOf (results : List TestResult) : Nat :=
  let total := (results.map (·.durationSecs)).sum % 2 ^ 64
  if total = 0 then
    (((results.map (·.score)).sum % 2 ^ 32) / (results.length % 2 ^ 32)) % 2 ^ 8
  else
    (((results.map (fun r => r.score * r.durationSecs % 2 ^ 32)).sum % 2 ^ 32)
      / (total % 2 ^ 32)) % 2 ^ 8

/-- The status computation of `TestSuite::finalize` (runner.rs 66-73). -/
def overallStatusOf (results : List TestResult) : TestStatus :=
  if results.any (fun r => r.status == .Failed) then .Failed
  else if results.any (fun r => r.status == .Partial) then .Partial
  else .Completed

/-- `TestSuite::finalize` (runner.rs 37-74).  `now` is the
`chrono::Utc::now()` read; `(end - start).to_std().unwrap_or_default()`
clamps a negative difference to zero, which `Nat` subtraction matches. -/
def TestSuite.finalize (s : TestSuite) (now : Nat) : TestSuite :=
  let s1 : TestSuite := { s with endTime := some now, duration := now - s.startTime }
  if s1.results.isEmpty then
    { s1 with overall_score := 0, overall_status := .Failed }
  else
    { s1 with
      overall_score := overallScoreOf s1.results
      overall_status := overallStatusOf s1.results }

/-! ### String containment (Rust `str::contains` on a literal pattern) -/

/-- `listStarts hay needle` holds when `needle` is an initial run of `hay`;
the building block for substring search. -/
def listStarts : List Char → List Char → Bool
  | _, [] => true
  | [], _ :: _ => false
  | a :: as, b :: bs => a == b && listStarts as bs

/-- `listContainsSub hay needle`: `needle` occurs contiguously in `hay`. -/
def listContainsSub : List Char → List Char → Bool
  | [], needle => needle.isEmpty
  | hay@(_ :: as), needle => listStarts hay needle || listContainsSub as needle

/-- Rust `hay.contains(needle)` for string slices. -/
def strContains (hay needle : String) : Bool :=
  listContainsSub hay.toList needle.toList

/-! ### The Scheduler (`BurnInRunner`, runner.rs 77-302) -/

/-- A registered workload unit (`Box<dyn BurnInTest + Send + Sync>`) as the
Scheduler observes it during one run: its `name()`, the outcome of its
`execute(&config)` call (`Except` models `Result`; the error carries the
displayed message), the outcome of its `cleanup()` call (`none` = `Ok(())`,
`some e` = `Err(e)` with displayed message `e`), and the wall-clock seconds
`start_time.elapsed()` reads in the error-synthesis branch. -/
structure WorkUnit where
  name : String
  exec : Except String TestResult
  cleanupErr : Option String
  elapsedSecs : Nat

/-- Observable calls the Scheduler makes on units and the reporter:
`executed n` marks the `test.execute(..)` invocation for unit `n`,
`cleanedUp n` the `test.cleanup()` invocation, `warned m` a
`reporter.report_warning(m)` call.  Display-only reporter calls
(`report_test_start` etc.) are not traced. -/
inductive Event where
  | executed (name : String)
  | cleanedUp (name : String)
  | warned (msg : String)
deriving DecidableEq, Repr

/-- The per-unit body shared by `execute_sequential` (runner.rs 136-159) and
both loops of `execute_parallel` (214-237, 264-287): run `execute`; on `Err e`
synthesize a Failed result with score 0, the elapsed duration, empty metrics
and one Critical issue `"Test failed: <e>"`. -/
def runUnit (u : WorkUnit) : TestResult :=
  match u.exec with
  | .ok r => r
  | .error e =>
    { name := u.name
      status := .Failed
      score := 0
      durationSecs := u.elapsedSecs
      issues := [{ component := u.name
                   severity := .Critical
                   message := "Test failed: " ++ e
                   action := some "Check system logs for details" }] }

/-- The warning emitted when `test.cleanup()` errs (runner.rs 165-167,
242-244, 293-295); nothing on success. -/
def cleanupEvents (u : WorkUnit) : List Event :=
  match u.cleanupErr with
  | none => []
  | some e => [.warned ("Failed to clean up after test " ++ u.name ++ ": " ++ e)]

/-- The `for test in &self.tests` loop of `execute_sequential`
(runner.rs 127-168), also the `for test in other_tests` loop of
`execute_parallel` (255-296): before each unit the interrupt flag is read
(`flag i` is the value seen at the i-th check) and a set flag breaks the
loop; otherwise the unit is executed, its result pushed, and its cleanup
run (warning on cleanup error).  Returns the event trace and the pushed
results. -/
def seqLoop : List WorkUnit → (Nat → Bool) → Nat → List Event × List TestResult
  | [], _, _ => ([], [])
  | u :: rest, flag, i =>
    if flag i then ([], [])
    else
      (Event.executed u.name :: Event.cleanedUp u.name ::
          (cleanupEvents u ++ (seqLoop rest flag (i + 1)).1),
        runUnit u :: (seqLoop rest flag (i + 1)).2)

/-- The `par_iter().map(..).filter_map(..)` fork-join over the cpu/memory
group (runner.rs 204-249), determinized to list order (per-unit work is
independent; only the per-unit flag reads `flag i` are oracles): a unit
whose pre-launch interrupt check reads true maps to `None` and is filtered
out while the remaining units still run; otherwise the unit is executed and
cleaned up exactly as in the sequential body. -/
def parLoop : List WorkUnit → (Nat → Bool) → Nat → List Event × List TestResult
  | [], _, _ => ([], [])
  | u :: rest, flag, i =>
    if flag i then parLoop rest flag (i + 1)
    else
      (Event.executed u.name :: Event.cleanedUp u.name ::
          (cleanupEvents u ++ (parLoop rest flag (i + 1)).1),
        runUnit u :: (parLoop rest flag (i + 1)).2)

/-- The engine state of `BurnInRunner` (runner.rs 78-83): only the
registered unit list matters to the claims; `config` and `reporter` are
external collaborators and the interrupt flag is modelled by the
per-check oracles passed to each execution. -/
structure BurnInRunner where
  tests : List WorkUnit

/-- The grouping test of `execute_parallel` (runner.rs 189):
`name.contains("cpu") || name.contains("memory")`. -/
def nameMatches (n : String) : Bool :=
  strContains n "cpu" || strContains n "memory"

/-- The `drain`-and-dispatch loop of `execute_parallel` (runner.rs 184-194):
an order-preserving partition of the registered units into
`cpu_memory_tests` and `other_tests`. -/
def groupTests (ts : List WorkUnit) : List WorkUnit × List WorkUnit :=
  ts.partition (fun u => nameMatches u.name)

/-- `BurnInRunner::execute_sequential` (runner.rs 122-174): a fresh suite
(started at `start`), the sequential loop over `self.tests` (iterated by
reference, so the runner's unit list is unchanged), then `finalize` at
`now`.  The Rust function's `Result` is always `Ok`. -/
def execute_sequential (r : BurnInRunner) (flag : Nat → Bool) (start now : Nat) :
    BurnInRunner × List Event × TestSuite :=
  (r, (seqLoop r.tests flag 0).1,
    TestSuite.finalize
      { TestSuite.new start with results := (seqLoop r.tests flag 0).2 } now)

/-- `BurnInRunner::execute_parallel` (runner.rs 177-302): `self.tests` is
drained (line 187) to build the two groups, so the runner keeps an empty
unit list; the cpu/memory group runs as a fork-join (per-unit flag oracle
`parFlag`), its results are extended into the suite, the remaining units
run sequentially (flag oracle `seqFlag`), and the suite is finalized at
`now`.  The Rust function's `Result` is always `Ok`. -/
def execute_parallel (r : BurnInRunner) (parFlag seqFlag : Nat → Bool)
    (start now : Nat) : BurnInRunner × List Event × TestSuite :=
  ({ r with tests := [] },
    (parLoop (groupTests r.tests).1 parFlag 0).1
      ++ (seqLoop (groupTests r.tests).2 seqFlag 0).1,
    TestSuite.finalize
      { TestSuite.new start with results :=
          (parLoop (groupTests r.tests).1 parFlag 0).2
            ++ (seqLoop (groupTests r.tests).2 seqFlag 0).2 } now)

/-! Specification-side helpers for the scheduler loops. -/

/-- The units a breaking loop actually reaches: the longest prefix on which
every flag read is false (stops at the first set flag). -/
def stopPrefix : List WorkUnit → (Nat → Bool) → Nat → List WorkUnit
  | [], _, _ => []
  | u :: rest, flag, i =>
    if flag i then [] else u :: stopPrefix rest flag (i + 1)

/-- The units a skipping loop actually reaches: every unit whose own flag
read is false (later units still run). -/
def keepRunning : List WorkUnit → (Nat → Bool) → Nat → List WorkUnit
  | [], _, _ => []
  | u :: rest, flag, i =>
    if flag i then keepRunning rest flag (i + 1)
    else u :: keepRunning rest flag (i + 1)

/-- Restrict a trace to the execute/cleanup invocations. -/
def coreEvents (es : List Event) : List Event :=
  es.filter fun e =>
    match e with
    | .executed _ => true
    | .cleanedUp _ => true
    | .warned _ => false

/-- Replace a unit's cleanup outcome by success. -/
def clearCleanup (u : WorkUnit) : WorkUnit :=
  { u with cleanupErr := none }

/-! ### The memory workload's scoring pipeline (`src/tests/memory.rs`) -/

/-- Rust `f64 as u8` on an exact value: truncate toward zero, saturating
into `[0, 255]`. -/
def u8OfRat (q : ℚ) : Nat :=
  min 255 ⌊q⌋.toNat

/-- The score computation of `MemoryValidationTest::execute`
(memory.rs 74-85): start at 100; a nonzero hardware-error count sets the
score to 0; then, when bandwidth is below 1000 MB/s, the penalty
`min((1000 - bandwidth)/100, 20) as u8` is subtracted with unchecked `u8`
arithmetic — modelled with release-profile wrapping `% 2^8` (a debug build
panics at the same inputs).  `f64` arithmetic is modelled by exact
rationals, faithful at every input this file evaluates it on. -/
def memoryScore (final_error_count : Nat) (final_bandwidth : ℚ) : Nat :=
  let score : Nat := 100
  let score := if final_error_count > 0 then 0 else score
  if final_bandwidth < 1000 then
    (score + 2 ^ 8 - u8OfRat (min ((1000 - final_bandwidth) / 100) 20)) % 2 ^ 8
  else
    score

/-- The issue derivation of `MemoryValidationTest::execute`
(memory.rs 88-133), parameterized by the final error count and the four
sub-test outcomes. -/
def memoryIssues (final_error_count : Nat)
    (seq_result random_result walking_result thread_result : Bool) :
    List TestIssue :=
  (if final_error_count > 0 then
    [{ component := "memory", severity := .Critical
       message := "Memory errors detected (" ++ toString final_error_count ++ " errors)"
       action := some "Run extended memory diagnostics and consider replacing memory modules" }]
   else []) ++
  (if !seq_result then
    [{ component := "memory", severity := .High
       message := "Sequential memory access test failed"
       action := some "Check for memory corruption or hardware issues" }]
   else []) ++
  (if !random_result then
    [{ component := "memory", severity := .Medium
       message := "Random memory access test failed"
       action := some "Check for memory addressing issues" }]
   else []) ++
  (if !walking_result then
    [{ component := "memory", severity := .High
       message := "Walking bit pattern test failed"
       action := some "Check for stuck bits in memory" }]
   else []) ++
  (if !thread_result then
    [{ component := "memory", severity := .Medium
       message := "Multi-threaded memory access test failed"
       action := some "Check for memory contention issues" }]
   else [])

/-- The `TestResult` built at the end of `MemoryValidationTest::execute`
(memory.rs 136-154), parameterized by the observables of the run: the
final shared-counter values, the four sub-test outcomes, and the elapsed
wall-clock seconds.  Status is Failed iff some derived issue is Critical.
(The latency metric only enters the untracked `metrics` JSON.) -/
def memoryExecuteResult (final_error_count : Nat) (final_bandwidth : ℚ)
    (seq_result random_result walking_result thread_result : Bool)
    (elapsedSecs : Nat) : TestResult :=
  let issues := memoryIssues final_error_count
    seq_result random_result walking_result thread_result
  { name := "memory_validation"
    status := if issues.any (fun i => i.severity == .Critical) then .Failed
              else .Completed
    score := memoryScore final_error_count final_bandwidth
    durationSecs := elapsedSecs
    issues := issues }

/-! ### Concrete suites used by individual results below -/

/-- One result whose weighted product `2 * 2^31` overflows the `as u32`
cast in `finalize`. -/
def overflowResult : TestResult :=
  { name := "t", status := .Completed, score := 2, durationSecs := 2 ^ 31, issues := [] }

/-- A suite holding only `overflowResult`. -/
def overflowSuite : TestSuite :=
  { TestSuite.new 0 with results := [overflowResult] }

/-- The three-unit scenario: durations 10s/20s/30s, scores 100/50/0. -/
def scenarioSuite : TestSuite :=
  { TestSuite.new 0 with results :=
      [ { name := "a", status := .Completed, score := 100, durationSecs := 10, issues := [] }
      , { name := "b", status := .Completed, score := 50, durationSecs := 20, issues := [] }
      , { name := "c", status := .Completed, score := 0, durationSecs := 30, issues := [] } ] }

/-- A concrete compute unit whose `execute` succeeds. -/
def cpuUnit : WorkUnit :=
  { name := "cpu_stress"
    exec := .ok { name := "cpu_stress", status := .Completed, score := 95,
                  durationSecs := 10, issues := [] }
    cleanupErr := none
    elapsedSecs := 10 }

/-- A concrete memory unit whose `execute` succeeds but whose `cleanup`
errs. -/
def memUnit : WorkUnit :=
  { name := "memory_validation"
    exec := .ok { name := "memory_validation", status := .Partial, score := 70,
                  durationSecs := 20, issues := [] }
    cleanupErr := some "temp buffer leak"
    elapsedSecs := 20 }

/-- A concrete storage unit whose `execute` errs with "disk full". -/
def stoUnit : WorkUnit :=
  { name := "storage_io"
    exec := .error "disk full"
    cleanupErr := none
    elapsedSecs := 3 }

/-! ### Helper lemmas -/

theorem finalize_results (s : TestSuite) (now : Nat) :
    (s.finalize now).results = s.results := by
  unfold TestSuite.finalize
  dsimp only
  split <;> rfl

theorem finalize_score_eq (s : TestSuite) (now : Nat) (h : s.results ≠ []) :
    (s.finalize now).overall_score = overallScoreOf s.results := by
  unfold TestSuite.finalize
  dsimp only
  rw [if_neg]
  simpa [List.isEmpty_iff] using h

theorem finalize_status_eq (s : TestSuite) (now : Nat) (h : s.results ≠ []) :
    (s.finalize now).overall_status = overallStatusOf s.results := by
  unfold TestSuite.finalize
  dsimp only
  rw [if_neg]
  simpa [List.isEmpty_iff] using h

theorem finalize_empty (s : TestSuite) (now : Nat) (h : s.results = []) :
    (s.finalize now).overall_score = 0 ∧ (s.finalize now).overall_status = .Failed := by
  unfold TestSuite.finalize
  dsimp only
  rw [if_pos (by simp [h])]
  exact ⟨rfl, rfl⟩

theorem overallStatusOf_failed_iff (rs : List TestResult) :
    overallStatusOf rs = .Failed ↔ ∃ r ∈ rs, r.status = .Failed := by
  unfold overallStatusOf
  split_ifs with h1 h2 <;> simp_all [List.any_eq_true]

theorem overallStatusOf_partial_iff (rs : List TestResult)
    (hnf : ¬ ∃ r ∈ rs, r.status = .Failed) :
    overallStatusOf rs = .Partial ↔ ∃ r ∈ rs, r.status = .Partial := by
  unfold overallStatusOf
  split_ifs with h1 h2
  · exact absurd (by simpa [List.any_eq_true] using h1) hnf
  · simp_all [List.any_eq_true]
  · simp_all [List.any_eq_true]

theorem overallStatusOf_completed (rs : List TestResult)
    (hnf : ¬ ∃ r ∈ rs, r.status = .Failed)
    (hnp : ¬ ∃ r ∈ rs, r.status = .Partial) :
    overallStatusOf rs = .Completed := by
  unfold overallStatusOf
  split_ifs with h1 h2
  · exact absurd (by simpa [List.any_eq_true] using h1) hnf
  · exact absurd (by simpa [List.any_eq_true] using h2) hnp
  · rfl

theorem runUnit_clearCleanup (u : WorkUnit) :
    runUnit (clearCleanup u) = runUnit u := rfl

theorem coreEvents_cleanupEvents (u : WorkUnit) :
    coreEvents (cleanupEvents u) = [] := by
  cases h : u.cleanupErr <;> simp [cleanupEvents, h, coreEvents]

theorem seqLoop_results (units : List WorkUnit) (flag : Nat → Bool) (i : Nat) :
    (seqLoop units flag i).2 = (stopPrefix units flag i).map runUnit := by
  induction units generalizing i with
  | nil => rfl
  | cons u rest ih =>
    unfold seqLoop stopPrefix
    by_cases h : flag i
    · simp [h]
    · simp [h, ih]

theorem parLoop_results (units : List WorkUnit) (flag : Nat → Bool) (i : Nat) :
    (parLoop units flag i).2 = (keepRunning units flag i).map runUnit := by
  induction units generalizing i with
  | nil => rfl
  | cons u rest ih =>
    unfold parLoop keepRunning
    by_cases h : flag i
    · simp [h, ih]
    · simp [h, ih]

theorem seqLoop_coreEvents (units : List WorkUnit) (flag : Nat → Bool) (i : Nat) :
    coreEvents (seqLoop units flag i).1
      = (stopPrefix units flag i).flatMap
          (fun u => [Event.executed u.name, Event.cleanedUp u.name]) := by
  induction units generalizing i with
  | nil => rfl
  | cons u rest ih =>
    unfold seqLoop stopPrefix
    by_cases h : flag i
    · simp [h, coreEvents]
    · have hce := coreEvents_cleanupEvents u
      unfold coreEvents at hce ih ⊢
      simp [h, List.filter_append, hce, ih, List.flatMap_cons]

theorem parLoop_coreEvents (units : List WorkUnit) (flag : Nat → Bool) (i : Nat) :
    coreEvents (parLoop units flag i).1
      = (keepRunning units flag i).flatMap
          (fun u => [Event.executed u.name, Event.cleanedUp u.name]) := by
  induction units generalizing i with
  | nil => rfl
  | cons u rest ih =>
    unfold parLoop keepRunning
    by_cases h : flag i
    · simp [h, ih]
    · have hce := coreEvents_cleanupEvents u
      unfold coreEvents at hce ih ⊢
      simp [h, List.filter_append, hce, List.flatMap_cons]
      exact ih (i + 1)

theorem seqLoop_results_clearCleanup (units : List WorkUnit) (flag : Nat → Bool)
    (i : Nat) :
    (seqLoop (units.map clearCleanup) flag i).2 = (seqLoop units flag i).2 := by
  induction units generalizing i with
  | nil => rfl
  | cons u rest ih =>
    unfold seqLoop
    simp only [List.map_cons]
    by_cases h : flag i
    · simp [h]
    · simp [h, ih, runUnit_clearCleanup]

theorem parLoop_results_clearCleanup (units : List WorkUnit) (flag : Nat → Bool)
    (i : Nat) :
    (parLoop (units.map clearCleanup) flag i).2 = (parLoop units flag i).2 := by
  induction units generalizing i with
  | nil => rfl
  | cons u rest ih =>
    unfold parLoop
    simp only [List.map_cons]
    by_cases h : flag i
    · simp [h, ih]
    · simp [h, ih, runUnit_clearCleanup]

theorem keepRunning_all_true (units : List WorkUnit) (flag : Nat → Bool) (i : Nat)
    (h : ∀ j, i ≤ j → flag j = true) : keepRunning units flag i = [] := by
  induction units generalizing i with
  | nil => rfl
  | cons u rest ih =>
    unfold keepRunning
    rw [if_pos (h i le_rfl)]
    exact ih (i + 1) fun j hj => h j (by omega)

theorem stopPrefix_eq_keepRunning (units : List WorkUnit) (flag : Nat → Bool)
    (i : Nat) (hmono : ∀ j k, j ≤ k → flag j = true → flag k = true) :
    stopPrefix units flag i = keepRunning units flag i := by
  induction units generalizing i with
  | nil => rfl
  | cons u rest ih =>
    unfold stopPrefix keepRunning
    by_cases h : flag i
    · rw [if_pos h, if_pos h]
      exact (keepRunning_all_true rest flag (i + 1)
        fun j hj => hmono i j (by omega) h).symm
    · rw [if_neg h, if_neg h, ih]

theorem execute_sequential_results (r : BurnInRunner) (flag : Nat → Bool)
    (start now : Nat) :
    (execute_sequential r flag start now).2.2.results
      = (seqLoop r.tests flag 0).2 :=
  finalize_results _ now

theorem execute_parallel_results (r : BurnInRunner) (parFlag seqFlag : Nat → Bool)
    (start now : Nat) :
    (execute_parallel r parFlag seqFlag start now).2.2.results
      = (parLoop (groupTests r.tests).1 parFlag 0).2
        ++ (seqLoop (groupTests r.tests).2 seqFlag 0).2 :=
  finalize_results _ now

theorem execute_sequential_status (r : BurnInRunner) (flag : Nat → Bool)
    (start now : Nat) (h : (seqLoop r.tests flag 0).2 ≠ []) :
    (execute_sequential r flag start now).2.2.overall_status
      = overallStatusOf (seqLoop r.tests flag 0).2 :=
  finalize_status_eq _ now h

/-! ### Claims -/

/-- C1: for every TestSuite with at least one result, after `finalize()` the
overall_status is Failed iff some member result has status Failed; otherwise
it is Partial iff some member result has status Partial; otherwise it is
Completed. -/
theorem C1_overall_status_invariant (s : TestSuite) (now : Nat)
    (h : s.results ≠ []) :
    ((s.finalize now).overall_status = .Failed ↔
        ∃ r ∈ s.results, r.status = .Failed)
    ∧ ((¬ ∃ r ∈ s.results, r.status = .Failed) →
        ((s.finalize now).overall_status = .Partial ↔
          ∃ r ∈ s.results, r.status = .Partial))
    ∧ ((¬ ∃ r ∈ s.results, r.status = .Failed) →
        (¬ ∃ r ∈ s.results, r.status = .Partial) →
        (s.finalize now).overall_status = .Completed) := by
  rw [finalize_status_eq s now h]
  exact ⟨overallStatusOf_failed_iff _,
    fun hnf => overallStatusOf_partial_iff _ hnf,
    fun hnf hnp => overallStatusOf_completed _ hnf hnp⟩

/-- Witness for C1 at the concrete three-result suite. -/
theorem C1_overall_status_invariant_witness :
    ((scenarioSuite.finalize 60).overall_status = .Failed ↔
        ∃ r ∈ scenarioSuite.results, r.status = .Failed)
    ∧ ((¬ ∃ r ∈ scenarioSuite.results, r.status = .Failed) →
        ((scenarioSuite.finalize 60).overall_status = .Partial ↔
          ∃ r ∈ scenarioSuite.results, r.status = .Partial))
    ∧ ((¬ ∃ r ∈ scenarioSuite.results, r.status = .Failed) →
        (¬ ∃ r ∈ scenarioSuite.results, r.status = .Partial) →
        (scenarioSuite.finalize 60).overall_status = .Completed) :=
  C1_overall_status_invariant scenarioSuite 60 (by decide)

/-- C2 (counterexample): the claim's formula `Σ(score·duration) / Σduration`
does not hold for every non-empty suite: with one result of score 2 and
duration `2^31` seconds the `as u32` cast of the weighted product truncates
`2 * 2^31` to 0 and `finalize` stores 0, while the formula gives 2. -/
theorem C2_weighted_score_counterexample :
    (overflowSuite.finalize 60).overall_score ≠
      (overflowSuite.results.map (fun r => r.score * r.durationSecs)).sum
        / (overflowSuite.results.map (·.durationSecs)).sum := by
  decide

/-- C2 (amended): for every non-empty TestSuite whose results are
well-formed u8 scores and small enough that no `as u32` cast truncates
(`Σ(score·duration) < 2^32`, `Σduration < 2^32`, count `< 2^32`,
`Σscore < 2^32`), `finalize()` sets overall_score to
`Σ(score_i·duration_i) / Σ duration_i` (integer truncation) when
`Σ duration_i` in whole seconds is positive, and to the unweighted mean
`Σ score_i / count` when `Σ duration_i` is zero. -/
theorem C2_weighted_score (s : TestSuite) (now : Nat)
    (hne : s.results ≠ [])
    (hscore : ∀ r ∈ s.results, r.score < 2 ^ 8)
    (hfit : (s.results.map (fun r => r.score * r.durationSecs)).sum < 2 ^ 32)
    (hdur : (s.results.map (·.durationSecs)).sum < 2 ^ 32)
    (hcnt : s.results.length < 2 ^ 32)
    (hsum : (s.results.map (·.score)).sum < 2 ^ 32) :
    (s.finalize now).overall_score =
      if 0 < (s.results.map (·.durationSecs)).sum then
        (s.results.map (fun r => r.score * r.durationSecs)).sum
          / (s.results.map (·.durationSecs)).sum
      else
        (s.results.map (·.score)).sum / s.results.length := by
  have hlen0 : s.results.length ≠ 0 := by
    simpa [List.length_eq_zero] using hne
  have hlenpos : 0 < s.results.length := Nat.pos_of_ne_zero hlen0
  rw [finalize_score_eq s now hne]
  unfold overallScoreOf
  have hT64 : (s.results.map (·.durationSecs)).sum % 2 ^ 64
      = (s.results.map (·.durationSecs)).sum :=
    Nat.mod_eq_of_lt (lt_trans hdur (by norm_num))
  rw [hT64]
  by_cases hT : (s.results.map (·.durationSecs)).sum = 0
  · rw [if_pos hT, if_neg (by simp [hT])]
    rw [Nat.mod_eq_of_lt hsum, Nat.mod_eq_of_lt hcnt]
    apply Nat.mod_eq_of_lt
    have hbound : (s.results.map (·.score)).sum ≤ s.results.length * 255 := by
      have := List.sum_le_card_nsmul (s.results.map (·.score)) 255 (by
        intro x hx
        obtain ⟨r, hr, rfl⟩ := List.mem_map.mp hx
        exact Nat.lt_succ_iff.mp (hscore r hr))
      simpa [smul_eq_mul] using this
    rw [Nat.div_lt_iff_lt_mul hlenpos]
    calc (s.results.map (·.score)).sum ≤ s.results.length * 255 := hbound
      _ < 2 ^ 8 * s.results.length := by
        rw [Nat.mul_comm]
        exact Nat.mul_lt_mul_of_lt_of_le (by norm_num) le_rfl hlenpos
  · rw [if_neg hT, if_pos (Nat.pos_of_ne_zero hT)]
    have hmapeq : s.results.map (fun r => r.score * r.durationSecs % 2 ^ 32)
        = s.results.map (fun r => r.score * r.durationSecs) := by
      apply List.map_congr_left
      intro r hr
      apply Nat.mod_eq_of_lt
      exact lt_of_le_of_lt
        (List.single_le_sum (by intro x _; exact Nat.zero_le x) _
          (List.mem_map_of_mem (fun r => r.score * r.durationSecs) hr))
        hfit
    rw [hmapeq, Nat.mod_eq_of_lt hfit, Nat.mod_eq_of_lt hdur]
    apply Nat.mod_eq_of_lt
    have hbound : (s.results.map (fun r => r.score * r.durationSecs)).sum
        ≤ 255 * (s.results.map (·.durationSecs)).sum := by
      rw [← List.sum_map_mul_left]
      apply List.sum_le_sum
      intro r hr
      exact Nat.mul_le_mul_right _ (Nat.lt_succ_iff.mp (hscore r hr))
    rw [Nat.div_lt_iff_lt_mul (Nat.pos_of_ne_zero hT)]
    calc (s.results.map (fun r => r.score * r.durationSecs)).sum
        ≤ 255 * (s.results.map (·.durationSecs)).sum := hbound
      _ < 2 ^ 8 * (s.results.map (·.durationSecs)).sum := by
        exact Nat.mul_lt_mul_of_lt_of_le (by norm_num) le_rfl
          (Nat.pos_of_ne_zero hT)

/-- Witness for C2 at the spec's scenario: durations 10s/20s/30s with
scores 100/50/0 give weighted score (100·10 + 50·20 + 0·30)/60 = 33. -/
theorem C2_weighted_score_witness :
    ((scenarioSuite.finalize 60).overall_score =
      if 0 < (scenarioSuite.results.map (·.durationSecs)).sum then
        (scenarioSuite.results.map (fun r => r.score * r.durationSecs)).sum
          / (scenarioSuite.results.map (·.durationSecs)).sum
      else
        (scenarioSuite.results.map (·.score)).sum / scenarioSuite.results.length)
    ∧ (scenarioSuite.finalize 60).overall_score = 33 :=
  ⟨C2_weighted_score scenarioSuite 60 (by decide) (by decide) (by decide)
      (by decide) (by decide) (by decide),
    by decide⟩

/-- C4: for a TestSuite whose results list is empty, `finalize()` yields
overall_score 0 and overall_status Failed. -/
theorem C4_empty_suite (s : TestSuite) (now : Nat) (h : s.results = []) :
    (s.finalize now).overall_score = 0 ∧
    (s.finalize now).overall_status = .Failed :=
  finalize_empty s now h

/-- Witness for C4 at a freshly created suite. -/
theorem C4_empty_suite_witness :
    ((TestSuite.new 7).finalize 9).overall_score = 0 ∧
    ((TestSuite.new 7).finalize 9).overall_status = .Failed :=
  C4_empty_suite (TestSuite.new 7) 9 rfl

/-- C9: calling `finalize()` twice on a suite whose results list is
unchanged yields the same overall_score and overall_status both times
(the end time of each call may differ). -/
theorem C9_finalize_idempotent (s : TestSuite) (n1 n2 : Nat) :
    ((s.finalize n1).finalize n2).overall_score
      = (s.finalize n1).overall_score
    ∧ ((s.finalize n1).finalize n2).overall_status
      = (s.finalize n1).overall_status := by
  by_cases h : s.results = []
  · have h1 : (s.finalize n1).results = [] := by rw [finalize_results]; exact h
    exact ⟨by rw [(finalize_empty _ n2 h1).1, (finalize_empty s n1 h).1],
      by rw [(finalize_empty _ n2 h1).2, (finalize_empty s n1 h).2]⟩
  · have h1 : (s.finalize n1).results ≠ [] := by rw [finalize_results]; exact h
    exact ⟨by rw [finalize_score_eq _ n2 h1, finalize_score_eq s n1 h,
        finalize_results],
      by rw [finalize_status_eq _ n2 h1, finalize_status_eq s n1 h,
        finalize_results]⟩

/-- C3: the claim says a nonzero final hardware-error count forces the
memory unit's score to exactly 0 regardless of every other metric.  The
status half holds, but the score half is broken by the code: after setting
the score to 0 it still subtracts the bandwidth penalty with unchecked `u8`
arithmetic (memory.rs 83-85), so error count 1 with bandwidth 0 MB/s (all
sub-tests passing) yields score 246 by wraparound (a panic in a debug
build), not 0; with bandwidth 1500 MB/s (no penalty) the score is 0 as
intended. -/
theorem C3_memory_error_score_bug :
    (memoryExecuteResult 1 0 true true true true 5).status = .Failed
    ∧ (memoryExecuteResult 1 0 true true true true 5).score = 246
    ∧ (memoryExecuteResult 1 0 true true true true 5).score ≠ 0
    ∧ memoryScore 1 1500 = 0 := by
  have hscore : memoryScore 1 0 = 246 := by
    norm_num [memoryScore, u8OfRat]
    decide
  refine ⟨by decide, hscore, by rw [show (memoryExecuteResult 1 0 true true
    true true 5).score = memoryScore 1 0 from rfl, hscore]; decide,
    by norm_num [memoryScore]⟩

/-- C5: for every workload unit whose `execute` returns `Err e`, the
synthesized TestResult has status Failed, score 0, and exactly one issue,
Critical, with message `"Test failed: " ++ e`; the sequential loop pushes
it and continues with the remaining units. -/
theorem C5_error_synthesis (u : WorkUnit) (e : String) (rest : List WorkUnit)
    (flag : Nat → Bool) (i : Nat)
    (hexec : u.exec = .error e) (hflag : flag i = false) :
    (runUnit u).status = .Failed
    ∧ (runUnit u).score = 0
    ∧ (runUnit u).issues.length = 1
    ∧ (∀ iss ∈ (runUnit u).issues,
        iss.severity = .Critical ∧ iss.message = "Test failed: " ++ e)
    ∧ (seqLoop (u :: rest) flag i).2
        = runUnit u :: (seqLoop rest flag (i + 1)).2 := by
  refine ⟨?_, ?_, ?_, ?_, ?_⟩ <;> simp [runUnit, hexec, seqLoop, hflag]

/-- Witness for C5 at the storage unit failing with "disk full". -/
theorem C5_error_synthesis_witness :
    (runUnit stoUnit).status = .Failed
    ∧ (runUnit stoUnit).score = 0
    ∧ (runUnit stoUnit).issues.length = 1
    ∧ (∀ iss ∈ (runUnit stoUnit).issues,
        iss.severity = .Critical ∧ iss.message = "Test failed: " ++ "disk full")
    ∧ (seqLoop (stoUnit :: []) (fun _ => false) 0).2
        = runUnit stoUnit :: (seqLoop [] (fun _ => false) (0 + 1)).2 :=
  C5_error_synthesis stoUnit "disk full" [] (fun _ => false) 0 rfl rfl

/-- C6: in both the sequential loop and the parallel fork-join, every unit
that reaches `execute` has `cleanup` invoked exactly once, immediately
after its execute and before the next unit is touched (the core-event
trace is per-unit blocks `[executed, cleanedUp]`); and a cleanup error
never aborts the run nor changes any collected result (the result lists
are invariant under erasing all cleanup errors). -/
theorem C6_cleanup_always (units : List WorkUnit) (flag : Nat → Bool) (i : Nat) :
    coreEvents (seqLoop units flag i).1
      = (stopPrefix units flag i).flatMap
          (fun u => [Event.executed u.name, Event.cleanedUp u.name])
    ∧ coreEvents (parLoop units flag i).1
      = (keepRunning units flag i).flatMap
          (fun u => [Event.executed u.name, Event.cleanedUp u.name])
    ∧ (seqLoop (units.map clearCleanup) flag i).2 = (seqLoop units flag i).2
    ∧ (parLoop (units.map clearCleanup) flag i).2 = (parLoop units flag i).2 :=
  ⟨seqLoop_coreEvents units flag i, parLoop_coreEvents units flag i,
    seqLoop_results_clearCleanup units flag i,
    parLoop_results_clearCleanup units flag i⟩

/-- C7: `execute_parallel` puts exactly the units whose name contains
"cpu" or "memory" into the concurrent group and all other units into the
sequential group, and (when the sequential-loop flag reads are monotone,
as a once-set interrupt flag is) the suite's results are the full
registered unit set minus the units whose pre-launch or pre-iteration
interrupt check read true, concurrent-group results first. -/
theorem C7_parallel_grouping (tests : List WorkUnit) (parFlag seqFlag : Nat → Bool)
    (start now : Nat)
    (hmono : ∀ j k, j ≤ k → seqFlag j = true → seqFlag k = true) :
    (∀ u ∈ (groupTests tests).1, nameMatches u.name = true)
    ∧ (∀ u ∈ (groupTests tests).2, nameMatches u.name = false)
    ∧ (∀ u ∈ tests, u ∈ (groupTests tests).1 ∨ u ∈ (groupTests tests).2)
    ∧ (execute_parallel ⟨tests⟩ parFlag seqFlag start now).2.2.results
        = (keepRunning (groupTests tests).1 parFlag 0).map runUnit
          ++ (keepRunning (groupTests tests).2 seqFlag 0).map runUnit := by
  have hpart : groupTests tests
      = (tests.filter (fun u => nameMatches u.name),
          tests.filter (not ∘ fun u => nameMatches u.name)) := by
    unfold groupTests
    exact List.partition_eq_filter_filter (fun u => nameMatches u.name) tests
  refine ⟨?_, ?_, ?_, ?_⟩
  · intro u hu
    rw [hpart] at hu
    exact (List.mem_filter.mp hu).2
  · intro u hu
    rw [hpart] at hu
    simpa [Function.comp] using (List.mem_filter.mp hu).2
  · intro u hu
    rw [hpart]
    by_cases h : nameMatches u.name
    · exact Or.inl (List.mem_filter.mpr ⟨hu, h⟩)
    · exact Or.inr (List.mem_filter.mpr ⟨hu, by
        simpa [Function.comp] using h⟩)
  · rw [execute_parallel_results, parLoop_results, seqLoop_results,
      stopPrefix_eq_keepRunning _ _ _ hmono]

/-- Witness for C7: a cpu unit and a storage unit, no interruption. -/
theorem C7_parallel_grouping_witness :
    (∀ u ∈ (groupTests [cpuUnit, stoUnit]).1, nameMatches u.name = true)
    ∧ (∀ u ∈ (groupTests [cpuUnit, stoUnit]).2, nameMatches u.name = false)
    ∧ (∀ u ∈ [cpuUnit, stoUnit],
        u ∈ (groupTests [cpuUnit, stoUnit]).1
          ∨ u ∈ (groupTests [cpuUnit, stoUnit]).2)
    ∧ (execute_parallel ⟨[cpuUnit, stoUnit]⟩ (fun _ => false) (fun _ => false)
          0 40).2.2.results
        = (keepRunning (groupTests [cpuUnit, stoUnit]).1 (fun _ => false) 0).map
            runUnit
          ++ (keepRunning (groupTests [cpuUnit, stoUnit]).2 (fun _ => false) 0).map
              runUnit :=
  C7_parallel_grouping [cpuUnit, stoUnit] (fun _ => false) (fun _ => false)
    0 40 (fun _ _ _ h => h)

/-- C8: in sequential execution the interrupt flag is checked before each
unit and a set flag stops the loop, so the results are exactly the units
before the first set-flag check; in particular with the flag set from the
second check on, a three-unit run keeps exactly one result and the overall
status is derived from that single result alone. -/
theorem C8_sequential_interrupt_stop (units : List WorkUnit) (flag : Nat → Bool)
    (start now : Nat) :
    (execute_sequential ⟨units⟩ flag start now).2.2.results
      = (stopPrefix units flag 0).map runUnit
    ∧ (units.length = 3 → flag 0 = false → (∀ i, 1 ≤ i → flag i = true) →
        (execute_sequential ⟨units⟩ flag start now).2.2.results.length = 1
        ∧ (execute_sequential ⟨units⟩ flag start now).2.2.results
            = (units.take 1).map runUnit
        ∧ (execute_sequential ⟨units⟩ flag start now).2.2.overall_status
            = overallStatusOf ((units.take 1).map runUnit)) := by
  have hres : (execute_sequential ⟨units⟩ flag start now).2.2.results
      = (stopPrefix units flag 0).map runUnit := by
    rw [execute_sequential_results, seqLoop_results]
  refine ⟨hres, fun hlen h0 h1 => ?_⟩
  obtain ⟨a, b, c, rfl⟩ := List.length_eq_three.mp hlen
  have hstop : stopPrefix [a, b, c] flag 0 = [a] := by
    simp [stopPrefix, h0, h1 1 le_rfl]
  have hX : (seqLoop [a, b, c] flag 0).2 = [runUnit a] := by
    rw [seqLoop_results, hstop]
    rfl
  refine ⟨?_, ?_, ?_⟩
  · rw [hres, hstop]
    rfl
  · rw [hres, hstop]
    rfl
  · rw [execute_sequential_status ⟨[a, b, c]⟩ flag start now
      (by rw [hX]; simp), hX]
    rfl

/-- Witness for C8: three concrete units with the flag set after the first
check. -/
theorem C8_sequential_interrupt_stop_witness :
    (execute_sequential ⟨[cpuUnit, memUnit, stoUnit]⟩ (fun i => decide (1 ≤ i))
        0 33).2.2.results
      = (stopPrefix [cpuUnit, memUnit, stoUnit] (fun i => decide (1 ≤ i)) 0).map
          runUnit
    ∧ ((execute_sequential ⟨[cpuUnit, memUnit, stoUnit]⟩ (fun i => decide (1 ≤ i))
          0 33).2.2.results.length = 1
        ∧ (execute_sequential ⟨[cpuUnit, memUnit, stoUnit]⟩ (fun i => decide (1 ≤ i))
            0 33).2.2.results
          = ([cpuUnit, memUnit, stoUnit].take 1).map runUnit
        ∧ (execute_sequential ⟨[cpuUnit, memUnit, stoUnit]⟩ (fun i => decide (1 ≤ i))
            0 33).2.2.overall_status
          = overallStatusOf (([cpuUnit, memUnit, stoUnit].take 1).map runUnit)) :=
  ⟨(C8_sequential_interrupt_stop [cpuUnit, memUnit, stoUnit]
      (fun i => decide (1 ≤ i)) 0 33).1,
    (C8_sequential_interrupt_stop [cpuUnit, memUnit, stoUnit]
      (fun i => decide (1 ≤ i)) 0 33).2 rfl rfl
      (fun _ hi => decide_eq_true hi)⟩

/-- C10: `execute_parallel` drains the runner's registered unit list while
`execute_sequential` leaves the runner intact; hence any later parallel or
sequential run on the same runner after a parallel run executes zero units
and finalizes an empty suite with overall_score 0 and overall_status
Failed. -/
theorem C10_parallel_drains_tests (r : BurnInRunner) (pf sf pf2 sf2 sf3 : Nat → Bool)
    (t1 t2 t3 t4 t5 t6 t7 t8 : Nat) :
    (execute_parallel r pf sf t1 t2).1.tests = []
    ∧ (execute_sequential r sf3 t5 t6).1 = r
    ∧ ((execute_parallel (execute_parallel r pf sf t1 t2).1 pf2 sf2
          t3 t4).2.2.results = []
        ∧ (execute_parallel (execute_parallel r pf sf t1 t2).1 pf2 sf2
            t3 t4).2.2.overall_score = 0
        ∧ (execute_parallel (execute_parallel r pf sf t1 t2).1 pf2 sf2
            t3 t4).2.2.overall_status = .Failed)
    ∧ ((execute_sequential (execute_parallel r pf sf t1 t2).1 sf2
          t7 t8).2.2.results = []
        ∧ (execute_sequential (execute_parallel r pf sf t1 t2).1 sf2
            t7 t8).2.2.overall_score = 0
        ∧ (execute_sequential (execute_parallel r pf sf t1 t2).1 sf2
            t7 t8).2.2.overall_status = .Failed) :=
  ⟨rfl, rfl,
    ⟨finalize_results _ t4, (finalize_empty _ t4 rfl).1,
      (finalize_empty _ t4 rfl).2⟩,
    ⟨finalize_results _ t8, (finalize_empty _ t8 rfl).1,
      (finalize_empty _ t8 rfl).2⟩⟩

end Burnin
